import Mathlib

/-!
# Verification of the Intellistep stepper-motor core

Shallow embedding of the motor/coil drive core of the Intellistep firmware
(src/src/hardware/motor.cpp, motor.h and src/src/software/pid.cpp) and proofs
about the claims of its specification.

Modelling conventions:
* machine integers are modelled as `ℕ` / `ℤ`, with the C truncating division
  and modulo written `Int.tdiv` / `Int.tmod` and explicit two's-complement
  wrapping where the source casts;
* `float` / `double` values are modelled as exact rationals `ℚ`; places where
  the rational model provably coincides with (or deviates from) the IEEE
  computation are noted at the definition;
* the hardware calls (`GPIO_WRITE`, `analogSet`) are modelled both as mirrored
  fields of the motor state and as an explicit list of emitted events, so that
  claims about which writes a call issues can be stated.
-/

namespace Intellistep

/-- Coil states of a motor channel, from the COIL_STATE enum of motor.h. -/
inductive COIL_STATE
  | COIL_NOT_SET
  | FORWARD
  | BACKWARD
  | BRAKE
  | COAST
deriving DecidableEq, Repr

/-- Motor states, from the MOTOR_STATE enum of motor.h; OVERTEMP is the
variant compiled in under ENABLE_OVERTEMP_PROTECTION. -/
inductive MOTOR_STATE
  | MOTOR_NOT_SET
  | ENABLED
  | DISABLED
  | FORCED_ENABLED
  | FORCED_DISABLED
  | OVERTEMP
deriving DecidableEq, Repr

/-- Direction pins of the two H-bridge coil channels (config.h pin names used
by motor.cpp). -/
inductive Pin
  | COIL_A_DIR_1_PIN
  | COIL_A_DIR_2_PIN
  | COIL_B_DIR_1_PIN
  | COIL_B_DIR_2_PIN
deriving DecidableEq, Repr

/-- PWM output channels of the two coils (index A / B in motor.cpp). -/
inductive Channel
  | A
  | B
deriving DecidableEq, Repr

/-- Observable hardware effect of a coil-driver call: a digital write to a
direction pin (GPIO_WRITE) or a PWM duty update (analogSet). -/
inductive Event
  | gpioWrite (pin : Pin) (level : Bool)
  | analogSet (ch : Channel) (value : ℕ)
deriving DecidableEq, Repr

/-- Whether an event is a direction-pin write. -/
def Event.isGpioWrite : Event → Bool
  | .gpioWrite _ _ => true
  | .analogSet _ _ => false

/-- Modelled from the spec: the compile-time board and table constants that
motor.cpp uses but that live in headers absent from src/ (config.h and
fastSine.h). SINE_VAL_COUNT, SINE_MAX and the fastSin/fastCos lookups are the
sine table of spec §4.1 (fixed-point sine and cosine over one electrical
cycle); the board current maxima, the PWM scale constants and IDLE_MODE come
from config.h (§4.2 current clamping, §4.3 idling of the coils). Their values
are left abstract, as the spec fixes none of them. -/
structure Cfg where
  SINE_VAL_COUNT : ℕ
  SINE_MAX : ℤ
  fastSin : ℕ → ℤ
  fastCos : ℕ → ℤ
  MAX_RMS_BOARD_CURRENT : ℕ
  MAX_PEAK_BOARD_CURRENT : ℕ
  PWM_MAX_DUTY_CYCLE : ℕ
  CURRENT_SENSE_RESISTOR : ℕ
  BOARD_VOLTAGE : ℕ
  IDLE_MODE : COIL_STATE

/-- State of the StepperMotor object: the fields of motor.h / motor.cpp that
the verified operations read or write, together with the mirrored hardware
outputs (direction-pin levels and PWM duties) written by the coil driver.
Angles are exact rationals; microstepMultiplier is the uint32_t field of
motor.h line 251. startupAngleOffset and the pin/PWM mirrors stand for state
that motor.cpp uses but that is declared outside src/. -/
structure StepperMotor where
  state : MOTOR_STATE
  currentAngle : ℚ
  desiredAngle : ℚ
  currentStep : ℤ
  previousCoilStateA : COIL_STATE
  previousCoilStateB : COIL_STATE
  rmsCurrent : ℕ
  peakCurrent : ℕ
  microstepDivisor : ℕ
  fullStepAngle : ℚ
  microstepAngle : ℚ
  reversed : ℤ
  enableInverted : Bool
  microstepMultiplier : ℕ
  startupAngleOffset : ℚ
  pinA1 : Bool
  pinA2 : Bool
  pinB1 : Bool
  pinB2 : Bool
  pwmA : ℕ
  pwmB : ℕ
deriving DecidableEq, Repr

/-- Arduino constrain macro on unsigned values:
(amt)<(low) ? (low) : ((amt)>(high) ? (high) : (amt)). -/
def constrain (amt low high : ℕ) : ℕ :=
  if amt < low then low else if amt > high then high else amt

/-- StepperMotor::currentToPWM (motor.cpp lines 469-476): the uint32 value
(PWM_MAX_DUTY_CYCLE * CURRENT_SENSE_RESISTOR * abs(current)) / (BOARD_VOLTAGE * 100),
constrained to [0, PWM_MAX_DUTY_CYCLE]. current is a uint16, so abs is the
identity; the uint32 arithmetic stays far below 2^32 for board-realistic
constants, so plain truncating Nat division models it. -/
def currentToPWM (cfg : Cfg) (current : ℕ) : ℕ :=
  constrain (cfg.PWM_MAX_DUTY_CYCLE * cfg.CURRENT_SENSE_RESISTOR * current /
    (cfg.BOARD_VOLTAGE * 100)) 0 cfg.PWM_MAX_DUTY_CYCLE

/-- Direction-pin truth table shared by StepperMotor::setCoilA and setCoilB
(motor.cpp lines 399-415): FORWARD writes dir1=HIGH dir2=LOW, BACKWARD LOW/HIGH,
BRAKE HIGH/HIGH, COAST LOW/LOW; COIL_NOT_SET matches none of the branches, so
no direction pin is written for it. -/
def dirPinLevels : COIL_STATE → Option (Bool × Bool)
  | .FORWARD => some (true, false)
  | .BACKWARD => some (false, true)
  | .BRAKE => some (true, true)
  | .COAST => some (false, false)
  | .COIL_NOT_SET => none

/-- StepperMotor::setCoilA (motor.cpp lines 385-423): when the desired state
differs from the cached previous state, the PWM output is zeroed, the two
direction pins are written per the truth table and the cache is updated;
in every case the PWM duty is then set to currentToPWM(current). Returns the
updated object together with the hardware events in issue order. -/
def setCoilA (cfg : Cfg) (st : StepperMotor) (desiredState : COIL_STATE)
    (current : ℕ) : StepperMotor × List Event :=
  let pwm := currentToPWM cfg current
  if desiredState ≠ st.previousCoilStateA then
    match dirPinLevels desiredState with
    | some (d1, d2) =>
        ({ st with pinA1 := d1, pinA2 := d2,
                   previousCoilStateA := desiredState, pwmA := pwm },
         [Event.analogSet Channel.A 0,
          Event.gpioWrite Pin.COIL_A_DIR_1_PIN d1,
          Event.gpioWrite Pin.COIL_A_DIR_2_PIN d2,
          Event.analogSet Channel.A pwm])
    | none =>
        ({ st with previousCoilStateA := desiredState, pwmA := pwm },
         [Event.analogSet Channel.A 0, Event.analogSet Channel.A pwm])
  else
    ({ st with pwmA := pwm }, [Event.analogSet Channel.A pwm])

/-- StepperMotor::setCoilB (motor.cpp lines 427-465), mirror image of setCoilA
on the B channel. -/
def setCoilB (cfg : Cfg) (st : StepperMotor) (desiredState : COIL_STATE)
    (current : ℕ) : StepperMotor × List Event :=
  let pwm := currentToPWM cfg current
  if desiredState ≠ st.previousCoilStateB then
    match dirPinLevels desiredState with
    | some (d1, d2) =>
        ({ st with pinB1 := d1, pinB2 := d2,
                   previousCoilStateB := desiredState, pwmB := pwm },
         [Event.analogSet Channel.B 0,
          Event.gpioWrite Pin.COIL_B_DIR_1_PIN d1,
          Event.gpioWrite Pin.COIL_B_DIR_2_PIN d2,
          Event.analogSet Channel.B pwm])
    | none =>
        ({ st with previousCoilStateB := desiredState, pwmB := pwm },
         [Event.analogSet Channel.B 0, Event.analogSet Channel.B pwm])
  else
    ({ st with pwmB := pwm }, [Event.analogSet Channel.B pwm])

/-- Two's-complement reinterpretation of an integer as a signed 16-bit value,
modelling the int16_t casts in driveCoils. -/
def toInt16 (n : ℤ) : ℤ :=
  if n.emod 65536 < 32768 then n.emod 65536 else n.emod 65536 - 65536

/-- Sine-table index computation of StepperMotor::driveCoils (motor.cpp lines
290-294): the int32 step count is reduced with the C truncating % by
4 * microstepDivisor, then the resulting int32 bit pattern (its value modulo
2^32) is masked with SINE_VAL_COUNT - 1 and stored in a uint16 local (the
final % 65536). -/
def sineArrayIndex (cfg : Cfg) (microstepDivisor : ℕ) (steps : ℤ) : ℕ :=
  let steps2 := Int.tmod steps (4 * (microstepDivisor : ℤ))
  ((steps2 % (2 ^ 32 : ℤ)).toNat &&& (cfg.SINE_VAL_COUNT - 1)) % 65536

/-- Pure computation of the two coil commands issued by StepperMotor::driveCoils
(motor.cpp lines 288-345) in the static-current build: each coil percent is the
sine (resp. cosine) table value at the masked index, each power is
((int16_t)peakCurrent * percent) / SINE_MAX with the C truncating division, and
a positive power selects FORWARD with that magnitude, a negative one BACKWARD
with the negated magnitude, zero selects BRAKE with the default zero current. -/
def driveCoilsCmds (cfg : Cfg) (peakCurrent microstepDivisor : ℕ) (steps : ℤ) :
    (COIL_STATE × ℕ) × (COIL_STATE × ℕ) :=
  let arrayIndex := sineArrayIndex cfg microstepDivisor steps
  let coilAPercent := toInt16 (cfg.fastSin arrayIndex)
  let coilBPercent := toInt16 (cfg.fastCos arrayIndex)
  let coilAPower := toInt16 (Int.tdiv (toInt16 (peakCurrent : ℤ) * coilAPercent) cfg.SINE_MAX)
  let coilBPower := toInt16 (Int.tdiv (toInt16 (peakCurrent : ℤ) * coilBPercent) cfg.SINE_MAX)
  (if 0 < coilAPower then (COIL_STATE.FORWARD, coilAPower.toNat)
   else if coilAPower < 0 then (COIL_STATE.BACKWARD, (-coilAPower).toNat)
   else (COIL_STATE.BRAKE, 0),
   if 0 < coilBPower then (COIL_STATE.FORWARD, coilBPower.toNat)
   else if coilBPower < 0 then (COIL_STATE.BACKWARD, (-coilBPower).toNat)
   else (COIL_STATE.BRAKE, 0))

/-- Stateful StepperMotor::driveCoils: computes the two coil commands and
applies them to the coil channels in order (A then B), collecting the emitted
hardware events. -/
def driveCoils (cfg : Cfg) (st : StepperMotor) (steps : ℤ) :
    StepperMotor × List Event :=
  let cmds := driveCoilsCmds cfg st.peakCurrent st.microstepDivisor steps
  let ra := setCoilA cfg st cmds.1.1 cmds.1.2
  let rb := setCoilB cfg ra.1 cmds.2.1 cmds.2.2
  (rb.1, ra.2 ++ rb.2)

/-- Iterative fallback loop of StepperMotor::driveCoilsAngle (motor.cpp lines
360-370): while the angle is below 0 or above 360, add or subtract 360. The C
loop always terminates because each pass moves the value 360 toward [0, 360];
after the round-based correction the value lies in [-180, 360] (proved below),
so a fuel of 2 makes the fuelled function agree with the loop. -/
def normLoop : ℕ → ℚ → ℚ
  | 0, degAngle => degAngle
  | fuel + 1, degAngle =>
    if degAngle < 0 then normLoop fuel (degAngle + 360)
    else if degAngle > 360 then normLoop fuel (degAngle - 360)
    else degAngle

/-- Angle normalization of StepperMotor::driveCoilsAngle (motor.cpp lines
351-370): a single round-based correction (round(abs(angle)/360)*360 added for
negative inputs, round(angle/360)*360 subtracted for inputs above 360),
followed by the defensive iterative loop. Float arithmetic is modelled as
exact rational arithmetic; the C round (half away from zero) agrees with
Mathlib round on the nonnegative arguments used here. -/
def normalizeAngle (degAngle : ℚ) : ℚ :=
  let corrected :=
    if degAngle < 0 then degAngle + (round (|degAngle| / 360) : ℤ) * 360
    else if degAngle > 360 then degAngle - (round (degAngle / 360) : ℤ) * 360
    else degAngle
  normLoop 2 corrected

/-- StepperMotor::driveCoilsAngle (motor.cpp lines 349-381): normalize the
angle, convert it to microsteps by (angle / fullStepAngle) * microstepDivisor,
round to the nearest whole microstep (C round on a nonnegative float, stored
into a uint16 local, hence the % 65536), and delegate to driveCoils. -/
def driveCoilsAngle (cfg : Cfg) (st : StepperMotor) (degAngle : ℚ) :
    StepperMotor × List Event :=
  let deg := normalizeAngle degAngle
  let microstepAngle := deg / st.fullStepAngle * (st.microstepDivisor : ℚ)
  let roundedMicrosteps : ℕ := (round microstepAngle).toNat % 65536
  driveCoils cfg st (roundedMicrosteps : ℤ)

/-- Default branch of the switch statements in StepperMotor::setState
(motor.cpp lines 521-524 and 545-548): set both coils to IDLE_MODE with the
default zero current, then commit the new state. -/
def setStateDefaultBranch (cfg : Cfg) (st : StepperMotor)
    (newState : MOTOR_STATE) : StepperMotor :=
  let ra := setCoilA cfg st cfg.IDLE_MODE 0
  let rb := setCoilB cfg ra.1 cfg.IDLE_MODE 0
  { rb.1 with state := newState }

/-- Enabling actions of StepperMotor::setState (motor.cpp lines 501-508,
511-518 and 535-542): drive the coils to the current shaft angle minus the
startup offset, correct currentAngle to match, and set the given state.
getAngle() is the external sensor reading, passed in as sensorAngle. -/
def setStateEnableActions (cfg : Cfg) (sensorAngle : ℚ) (st : StepperMotor)
    (s : MOTOR_STATE) : StepperMotor :=
  let r := driveCoilsAngle cfg st (sensorAngle - st.startupAngleOffset)
  { r.1 with currentAngle := sensorAngle - st.startupAngleOffset, state := s }

/-- StepperMotor::setState (motor.cpp lines 491-553). The switch statements in
the source have no break after the ENABLED case (nor after FORCED_ENABLED in
the clearErrors branch), so the enabling actions fall through into the default
branch that idles both coils; the model chains the branches in exactly that
order. With clearErrors false, anything happens only when the current state is
ENABLED or DISABLED. -/
def setState (cfg : Cfg) (sensorAngle : ℚ) (st : StepperMotor)
    (newState : MOTOR_STATE) (clearErrors : Bool) : StepperMotor :=
  if st.state ≠ newState then
    if clearErrors then
      match newState with
      | .ENABLED =>
          setStateDefaultBranch cfg
            (setStateEnableActions cfg sensorAngle
              (setStateEnableActions cfg sensorAngle st .ENABLED) .FORCED_ENABLED)
            newState
      | .FORCED_ENABLED =>
          setStateDefaultBranch cfg
            (setStateEnableActions cfg sensorAngle st .FORCED_ENABLED) newState
      | _ => setStateDefaultBranch cfg st newState
    else
      if st.state = .ENABLED ∨ st.state = .DISABLED then
        match newState with
        | .ENABLED =>
            setStateDefaultBranch cfg
              (setStateEnableActions cfg sensorAngle st .ENABLED) newState
        | _ => setStateDefaultBranch cfg st newState
      else st
  else st

/-- StepperMotor::getState (motor.cpp lines 557-559). -/
def getState (st : StepperMotor) : MOTOR_STATE := st.state

/-- StepperMotor::getRMSCurrent (motor.cpp lines 91-93). -/
def getRMSCurrent (st : StepperMotor) : ℕ := st.rmsCurrent

/-- StepperMotor::getPeakCurrent (motor.cpp lines 97-99). -/
def getPeakCurrent (st : StepperMotor) : ℕ := st.peakCurrent

/-- Conversion factor of setRMSCurrent (motor.cpp line 112). The C computation
is the double product X * 1.414 truncated by a uint16 cast; for every X in
0..65535 that truncation equals the floor of X * (1414/1000) (checked
exhaustively against IEEE double semantics, the double rounding of the product
exactly compensates the fact that the literal 1.414 is slightly below the
decimal value), so the literal is modelled by the exact rational. -/
def rmsToPeakFactor : ℚ := 1414 / 1000

/-- Conversion factor of setPeakCurrent (motor.cpp line 127); as with
rmsToPeakFactor, trunc(Y * 0.707) in double equals the floor of
Y * (707/1000) for every uint16 Y. -/
def peakToRmsFactor : ℚ := 707 / 1000

/-- StepperMotor::setRMSCurrent (motor.cpp lines 102-114). The source guard
`rmsCurrent != -1` compares the uint16 parameter after integral promotion to
int against -1, so it is always true (no value of 0..65535 equals -1) and the
setter rejects nothing: rmsCurrent becomes the argument constrained to the
board RMS maximum and peakCurrent becomes trunc(X * 1.414) constrained to the
board peak maximum. The uint16 cast of the product is within range whenever
trunc(X * 1.414) < 65536 (X ≤ 46347); past that the C cast is undefined
behaviour and the model keeps the mathematical value. -/
def setRMSCurrent (cfg : Cfg) (st : StepperMotor) (x : ℕ) : StepperMotor :=
  { st with
    rmsCurrent := constrain x 0 cfg.MAX_RMS_BOARD_CURRENT,
    peakCurrent := constrain (⌊(x : ℚ) * rmsToPeakFactor⌋).toNat 0
      cfg.MAX_PEAK_BOARD_CURRENT }

/-- StepperMotor::setPeakCurrent (motor.cpp lines 118-129), dual of
setRMSCurrent with the factor 0.707 (here Y * 0.707 < Y, so the uint16 cast of
the product is always in range); its `peakCurrent != -1` guard is dead for the
same integral-promotion reason, so no input is rejected. -/
def setPeakCurrent (cfg : Cfg) (st : StepperMotor) (y : ℕ) : StepperMotor :=
  { st with
    peakCurrent := constrain y 0 cfg.MAX_PEAK_BOARD_CURRENT,
    rmsCurrent := constrain (⌊(y : ℚ) * peakToRmsFactor⌋).toNat 0
      cfg.MAX_RMS_BOARD_CURRENT }

/-- StepperMotor::getMicrostepping (motor.cpp lines 133-135). -/
def getMicrostepping (st : StepperMotor) : ℕ := st.microstepDivisor

/-- StepperMotor::setMicrostepping (motor.cpp lines 139-150). The source guard
`setMicrostepping != -1` compares the uint16 parameter after integral
promotion to int against -1, so it is always true (no value of 0..65535
equals -1): every argument, 65535 included, is stored as the divisor and the
microstep angle is recomputed as fullStepAngle / divisor. The float division
is modelled as exact rational division (exact in float for the power-of-two
divisors of the valid set; for divisor 0 the float result is infinite, which
the rational model cannot represent). -/
def setMicrostepping (st : StepperMotor) (d : ℕ) : StepperMotor :=
  { st with microstepDivisor := d,
            microstepAngle := st.fullStepAngle / (d : ℚ) }

/-- StepperMotor::setFullStepAngle (motor.cpp lines 154-170): accepts only the
values 1.8 and 0.9 (their float bit patterns, modelled by the exact decimals)
and recomputes the microstep angle. -/
def setFullStepAngle (st : StepperMotor) (newStepAngle : ℚ) : StepperMotor :=
  if newStepAngle ≠ -1 then
    if newStepAngle = 18 / 10 ∨ newStepAngle = 9 / 10 then
      { st with fullStepAngle := newStepAngle,
                microstepAngle := newStepAngle / (st.microstepDivisor : ℚ) }
    else st
  else st

/-- StepperMotor::setReversed (motor.cpp lines 185-192): stores the multiplier
-1 for true and +1 for false. -/
def setReversed (st : StepperMotor) (reversed : Bool) : StepperMotor :=
  if reversed then { st with reversed := -1 } else { st with reversed := 1 }

/-- StepperMotor::getReversed (motor.cpp lines 196-198): returns
reversed > 0 ? 1 : 0. -/
def getReversed (st : StepperMotor) : Bool :=
  if st.reversed > 0 then true else false

/-- StepperMotor::setMicrostepMultiplier (motor.cpp lines 218-224) together
with the uint32_t field declaration of motor.h line 251: a float argument
other than the sentinel -1 is stored through the truncating float-to-uint32
conversion (defined in C++ only for arguments in [0, 2^32)). -/
def setMicrostepMultiplier (st : StepperMotor) (x : ℚ) : StepperMotor :=
  if x ≠ -1 then { st with microstepMultiplier := (⌊x⌋).toNat } else st

/-- StepperMotor::getMicrostepMultiplier (motor.cpp lines 228-232): returns
the uint32 field converted back to float (a conversion that is exact for
values below 2^24). -/
def getMicrostepMultiplier (st : StepperMotor) : ℚ :=
  (st.microstepMultiplier : ℚ)

/-- StepperMotor::getAngleError (motor.cpp lines 39-41): the measured absolute
angle from the encoder minus the desired angle. getAbsoluteAngle() is the
external sensor reading, passed in as absAngle. -/
def getAngleError (absAngle : ℚ) (st : StepperMotor) : ℚ :=
  absAngle - st.desiredAngle

/-- PID controller state of StepperPID (pid.cpp): the input, output and
setpoint cells shared with the underlying PID library object. -/
structure StepperPID where
  input : ℚ
  output : ℚ
  setpoint : ℚ
deriving DecidableEq, Repr

/-- StepperPID::compute (pid.cpp lines 97-107): store the motor angle error in
the shared input cell, run the library Compute, and return the output cell.
The Arduino PID library itself is not part of src/, so its update step is
Modelled from the spec (§4.5): an abstract map pidAlgo from the freshly
sampled input to the bounded corrective output. -/
def StepperPID.compute (pidAlgo : ℚ → ℚ) (absAngle : ℚ) (motorSt : StepperMotor)
    (p : StepperPID) : StepperPID × ℚ :=
  let p2 := { p with input := getAngleError absAngle motorSt }
  let p3 := { p2 with output := pidAlgo p2.input }
  (p3, p3.output)

/-- Representative configuration used by the concrete evaluations: a 128-entry
sine table (2^7, dividing 4 x 32 microsteps) with a simple fixed-point ramp as
its table values, board maxima and PWM constants of typical magnitude, and
COAST as the idle mode. -/
def sampleCfg : Cfg where
  SINE_VAL_COUNT := 128
  SINE_MAX := 10000
  fastSin := fun n => (n : ℤ) * 100 - 6000
  fastCos := fun n => 6000 - (n : ℤ) * 100
  MAX_RMS_BOARD_CURRENT := 2475
  MAX_PEAK_BOARD_CURRENT := 3500
  PWM_MAX_DUTY_CYCLE := 1000
  CURRENT_SENSE_RESISTOR := 110
  BOARD_VOLTAGE := 12
  IDLE_MODE := .COAST

/-- Representative motor state used by the concrete evaluations: disabled, 16x
microstepping of a 1.8-degree motor, static currents 1000/1414 mA, coils
braked. -/
def sampleMotor : StepperMotor where
  state := .DISABLED
  currentAngle := 0
  desiredAngle := 0
  currentStep := 0
  previousCoilStateA := .BRAKE
  previousCoilStateB := .BRAKE
  rmsCurrent := 1000
  peakCurrent := 1414
  microstepDivisor := 16
  fullStepAngle := 9 / 5
  microstepAngle := 9 / 80
  reversed := 1
  enableInverted := false
  microstepMultiplier := 1
  startupAngleOffset := 0
  pinA1 := true
  pinA2 := true
  pinB1 := true
  pinB2 := true
  pwmA := 0
  pwmB := 0

/-- C9: setReversed stores the multiplier -1 for true and +1 for false,
getReversed reports true exactly when the stored multiplier is positive, and
hence setReversed(b) followed by getReversed() returns the negation of b. -/
theorem claim9_setReversed_getReversed_negation :
    (∀ st : StepperMotor,
      (setReversed st true).reversed = -1 ∧ (setReversed st false).reversed = 1) ∧
    (∀ st : StepperMotor, getReversed st = true ↔ 0 < st.reversed) ∧
    (∀ (st : StepperMotor) (b : Bool), getReversed (setReversed st b) = !b) := by
  refine ⟨fun st => ⟨rfl, rfl⟩, fun st => ?_, fun st b => ?_⟩
  · unfold getReversed
    split
    · simpa using by assumption
    · simpa using by omega
  · cases b <;> simp [setReversed, getReversed]

/-- C2 (amended): each call to the PID compute() samples its input as the
measured absolute angle from the encoder minus desiredAngle (measured minus
desired, the opposite order from the claim) and returns the controller output
computed from that error. -/
theorem claim2_pid_compute_error_is_measured_minus_desired
    (pidAlgo : ℚ → ℚ) (absAngle : ℚ) (motorSt : StepperMotor) (p : StepperPID) :
    (StepperPID.compute pidAlgo absAngle motorSt p).1.input
      = absAngle - motorSt.desiredAngle ∧
    (StepperPID.compute pidAlgo absAngle motorSt p).2
      = pidAlgo (absAngle - motorSt.desiredAngle) :=
  ⟨rfl, rfl⟩

/-- C2 counterexample: with desired angle 10 and measured absolute angle 45,
compute() samples the input 35 = measured - desired, not
desired - measured = -35 as the claim states. -/
theorem claim2_counterexample :
    (StepperPID.compute (fun e => e) 45
      { sampleMotor with desiredAngle := 10 } ⟨0, 0, 0⟩).1.input = 35 ∧
    (10 : ℚ) - 45 ≠ 35 := by
  constructor
  · norm_num [StepperPID.compute, getAngleError]
  · norm_num

/-- C10: the microstep multiplier is stored in a uint32 field, so setting any
non-sentinel float x (within the range where both C conversions are exact and
defined) and reading it back returns the integer truncation of x, not x. -/
theorem claim10_microstep_multiplier_truncates
    (st : StepperMotor) (x : ℚ) (h0 : 0 ≤ x) (_h1 : x < 2 ^ 24) :
    getMicrostepMultiplier (setMicrostepMultiplier st x) = (⌊x⌋ : ℚ) := by
  have hx : x ≠ -1 := by intro h; rw [h] at h0; norm_num at h0
  have hnn : (0 : ℤ) ≤ ⌊x⌋ := Int.floor_nonneg.mpr h0
  simp only [setMicrostepMultiplier, if_pos hx, getMicrostepMultiplier]
  exact_mod_cast congrArg (fun n : ℤ => (n : ℚ)) (Int.toNat_of_nonneg hnn)

/-- C10 witness: setting 1.34 reads back as the truncation 1.0, not 1.34. -/
theorem claim10_witness :
    getMicrostepMultiplier (setMicrostepMultiplier sampleMotor (134 / 100)) = 1 ∧
    getMicrostepMultiplier (setMicrostepMultiplier sampleMotor (134 / 100)) ≠ 134 / 100 := by
  have h := claim10_microstep_multiplier_truncates sampleMotor (134 / 100)
    (by norm_num) (by norm_num)
  constructor
  · rw [h]; norm_num
  · rw [h]; norm_num

/-- C3 counterexample: 3 is outside the valid divisor set {1,2,4,8,16,32}, yet
setMicrostepping(3) stores it (3 is not the uint16 sentinel) instead of being
a silent no-op on the sample state whose divisor is 16. -/
theorem claim3_counterexample :
    (setMicrostepping sampleMotor 3).microstepDivisor = 3 ∧
    sampleMotor.microstepDivisor = 16 ∧ (3 : ℕ) ≠ 16 := by
  refine ⟨rfl, rfl, by decide⟩

/-- C3 (amended): for every divisor d in {1,2,4,8,16,32}, setMicrostepping(d)
stores d and recomputes microstepAngle = fullStepAngle / d — but the same
holds for every uint16 argument whatsoever: the guard against the -1 sentinel
compares the promoted uint16 against -1 and is always true, so no input (not
even 65535, and not 0, whose recomputed angle falls outside the float model)
is rejected, and values outside the valid set are stored rather than
ignored. -/
theorem claim3_setMicrostepping_stores_any_divisor :
    ∀ (st : StepperMotor) (d : ℕ),
      (setMicrostepping st d).microstepDivisor = d ∧
      (0 < d →
        (setMicrostepping st d).microstepAngle = st.fullStepAngle / (d : ℚ)) := by
  intro st d
  exact ⟨rfl, fun _ => rfl⟩

/-- C3 witness: the valid divisor 8 is stored and the microstep angle is
recomputed on the sample 1.8-degree motor. -/
theorem claim3_witness :
    (setMicrostepping sampleMotor 8).microstepDivisor = 8 ∧
    (setMicrostepping sampleMotor 8).microstepAngle = sampleMotor.fullStepAngle / 8 := by
  have h := claim3_setMicrostepping_stores_any_divisor sampleMotor 8
  exact ⟨h.1, by rw [h.2 (by decide)]; norm_num⟩

/-- Arduino constrain with lower bound 0 on naturals is just the minimum with
the upper bound. -/
lemma constrain_zero_eq_min (v hi : ℕ) : constrain v 0 hi = min v hi := by
  unfold constrain
  split
  · omega
  · split <;> omega

/-- Floor of a natural number scaled by a ratio of naturals is the
corresponding truncating natural division. -/
lemma floor_nat_mul_ratio (x a b : ℕ) :
    (⌊(x : ℚ) * ((a : ℚ) / (b : ℚ))⌋).toNat = x * a / b := by
  have h : (x : ℚ) * ((a : ℚ) / (b : ℚ)) = ((x * a : ℕ) : ℚ) / ((b : ℕ) : ℚ) := by
    push_cast
    ring
  rw [h, Rat.floor_natCast_div_natCast]
  exact Int.toNat_natCast _

/-- C5 (amended): in the static current build, setRMSCurrent(X) followed by
getPeakCurrent() returns trunc(X × 1.414) clamped to the board peak maximum —
truncation toward zero, not rounding — and setPeakCurrent(Y) followed by
getRMSCurrent() returns trunc(Y × 0.707) clamped to the board RMS maximum; the
truncated products equal the integer divisions X*1414/1000 and Y*707/1000. -/
theorem claim5_current_roundtrip_truncates
    (cfg : Cfg) (st : StepperMotor) (x y : ℕ) (_hx : x ≠ 65535) (_hy : y ≠ 65535) :
    getPeakCurrent (setRMSCurrent cfg st x)
      = min (x * 1414 / 1000) cfg.MAX_PEAK_BOARD_CURRENT ∧
    getRMSCurrent (setPeakCurrent cfg st y)
      = min (y * 707 / 1000) cfg.MAX_RMS_BOARD_CURRENT := by
  have e14 : (1414 : ℚ) / 1000 = ((1414 : ℕ) : ℚ) / ((1000 : ℕ) : ℚ) := by norm_num
  have e07 : (707 : ℚ) / 1000 = ((707 : ℕ) : ℚ) / ((1000 : ℕ) : ℚ) := by norm_num
  constructor
  · simp only [getPeakCurrent, setRMSCurrent, rmsToPeakFactor]
    rw [constrain_zero_eq_min, e14, floor_nat_mul_ratio]
  · simp only [getRMSCurrent, setPeakCurrent, peakToRmsFactor]
    rw [constrain_zero_eq_min, e07, floor_nat_mul_ratio]

/-- C5 witness: setting 2000 mA RMS yields the peak 2828 = trunc(2000 × 1.414)
(below the sample board maximum 3500), and setting 2000 mA peak yields the RMS
1414 = trunc(2000 × 0.707). -/
theorem claim5_witness :
    getPeakCurrent (setRMSCurrent sampleCfg sampleMotor 2000) = 2828 ∧
    getRMSCurrent (setPeakCurrent sampleCfg sampleMotor 2000) = 1414 := by
  have h := claim5_current_roundtrip_truncates sampleCfg sampleMotor 2000 2000
    (by decide) (by decide)
  exact ⟨h.1.trans (by decide), h.2.trans (by decide)⟩

/-- C5 counterexample: the conversions truncate instead of rounding —
setRMSCurrent(2) stores peak 2 while the claimed clamped round(2 × 1.414) is
3, and setPeakCurrent(5) stores RMS 3 while the claimed clamped
round(5 × 0.707) is 4 (the sample board maxima 3500/2475 do not clip either
value, and any maxima of at least 4 give the same divergence). -/
theorem claim5_counterexample :
    getPeakCurrent (setRMSCurrent sampleCfg sampleMotor 2) = 2 ∧
    constrain (round ((2 : ℚ) * rmsToPeakFactor)).toNat 0
      sampleCfg.MAX_PEAK_BOARD_CURRENT = 3 ∧
    getRMSCurrent (setPeakCurrent sampleCfg sampleMotor 5) = 3 ∧
    constrain (round ((5 : ℚ) * peakToRmsFactor)).toNat 0
      sampleCfg.MAX_RMS_BOARD_CURRENT = 4 ∧
    (2 : ℕ) ≠ 3 ∧ (3 : ℕ) ≠ 4 := by
  have hf14 : (⌊((2 : ℕ) : ℚ) * rmsToPeakFactor⌋ : ℤ) = 2 := by
    rw [rmsToPeakFactor]; norm_num
  have hr14 : round ((2 : ℚ) * rmsToPeakFactor) = 3 := by
    rw [rmsToPeakFactor, round_eq]; norm_num
  have hf07 : (⌊((5 : ℕ) : ℚ) * peakToRmsFactor⌋ : ℤ) = 3 := by
    rw [peakToRmsFactor]; norm_num
  have hr07 : round ((5 : ℚ) * peakToRmsFactor) = 4 := by
    rw [peakToRmsFactor, round_eq]; norm_num
  refine ⟨?_, ?_, ?_, ?_, by decide, by decide⟩
  · simp only [getPeakCurrent, setRMSCurrent]
    rw [hf14]
    decide
  · rw [hr14]; decide
  · simp only [getRMSCurrent, setPeakCurrent]
    rw [hf07]
    decide
  · rw [hr07]; decide

/-- Requesting the state the motor is already in is a no-op (the outer
equality guard of setState, motor.cpp line 494). -/
lemma setState_eq_self (cfg : Cfg) (a : ℚ) (st : StepperMotor)
    (t : MOTOR_STATE) (b : Bool) (hst : st.state = t) :
    setState cfg a st t b = st := by
  unfold setState
  rw [if_neg (not_not_intro hst)]

/-- Without clearErrors, setState from a state that is neither ENABLED nor
DISABLED changes nothing (motor.cpp line 529). -/
lemma setState_false_of_not_active (cfg : Cfg) (a : ℚ) (st : StepperMotor)
    (t : MOTOR_STATE) (hst : st.state ≠ t)
    (h1 : st.state ≠ .ENABLED) (h2 : st.state ≠ .DISABLED) :
    setState cfg a st t false = st := by
  unfold setState
  rw [if_pos hst, if_neg Bool.false_ne_true,
    if_neg (by simp [h1, h2] : ¬(st.state = .ENABLED ∨ st.state = .DISABLED))]

/-- C6: with clearErrors false, setState commits a state change only when the
current state is ENABLED or DISABLED; from FORCED_ENABLED, FORCED_DISABLED or
OVERTEMP it returns the motor object entirely unchanged, coil outputs
included. -/
theorem claim6_setState_sticky_without_clearErrors :
    (∀ (cfg : Cfg) (sensorAngle : ℚ) (st : StepperMotor) (t : MOTOR_STATE),
      (st.state = .FORCED_ENABLED ∨ st.state = .FORCED_DISABLED ∨
        st.state = .OVERTEMP) →
      setState cfg sensorAngle st t false = st) ∧
    (∀ (cfg : Cfg) (sensorAngle : ℚ) (st : StepperMotor) (t : MOTOR_STATE),
      (setState cfg sensorAngle st t false).state ≠ st.state →
      st.state = .ENABLED ∨ st.state = .DISABLED) := by
  constructor
  · intro cfg a st t h
    by_cases hst : st.state = t
    · exact setState_eq_self cfg a st t false hst
    · refine setState_false_of_not_active cfg a st t hst ?_ ?_ <;>
        rcases h with h | h | h <;> rw [h] <;> intro hc <;> cases hc
  · intro cfg a st t h
    by_cases hEn : st.state = .ENABLED
    · exact Or.inl hEn
    by_cases hDis : st.state = .DISABLED
    · exact Or.inr hDis
    exfalso
    by_cases hst : st.state = t
    · rw [setState_eq_self cfg a st t false hst] at h
      exact h rfl
    · rw [setState_false_of_not_active cfg a st t hst hEn hDis] at h
      exact h rfl

/-- C6 witness: from FORCED_DISABLED, requesting ENABLED without clearErrors
leaves the sample motor object untouched. -/
theorem claim6_witness :
    setState sampleCfg 45 { sampleMotor with state := .FORCED_DISABLED }
      .ENABLED false = { sampleMotor with state := .FORCED_DISABLED } :=
  claim6_setState_sticky_without_clearErrors.1 sampleCfg 45
    { sampleMotor with state := .FORCED_DISABLED } .ENABLED (Or.inr (Or.inl rfl))

/-- Arduino constrain never exceeds its upper bound. -/
lemma constrain_le (v hi : ℕ) : constrain v 0 hi ≤ hi := by
  unfold constrain
  split
  · omega
  · split <;> omega

/-- After any setCoilA call the cached previous state equals the requested
state, whether or not the pins were written. -/
lemma setCoilA_prev (cfg : Cfg) (st : StepperMotor) (s : COIL_STATE) (c : ℕ) :
    (setCoilA cfg st s c).1.previousCoilStateA = s := by
  unfold setCoilA
  by_cases h : s = st.previousCoilStateA
  · rw [if_neg (not_not_intro h)]
    exact h.symm
  · rw [if_pos h]
    cases s <;> rfl

/-- After any setCoilB call the cached previous state equals the requested
state. -/
lemma setCoilB_prev (cfg : Cfg) (st : StepperMotor) (s : COIL_STATE) (c : ℕ) :
    (setCoilB cfg st s c).1.previousCoilStateB = s := by
  unfold setCoilB
  by_cases h : s = st.previousCoilStateB
  · rw [if_neg (not_not_intro h)]
    exact h.symm
  · rw [if_pos h]
    cases s <;> rfl

/-- Repeating a setCoilA call with the state already cached issues only the
PWM update. -/
lemma setCoilA_cached (cfg : Cfg) (st : StepperMotor) (s : COIL_STATE) (c : ℕ)
    (h : st.previousCoilStateA = s) :
    setCoilA cfg st s c
      = ({ st with pwmA := currentToPWM cfg c },
         [Event.analogSet Channel.A (currentToPWM cfg c)]) := by
  unfold setCoilA
  rw [if_neg (not_not_intro h.symm)]

/-- Repeating a setCoilB call with the state already cached issues only the
PWM update. -/
lemma setCoilB_cached (cfg : Cfg) (st : StepperMotor) (s : COIL_STATE) (c : ℕ)
    (h : st.previousCoilStateB = s) :
    setCoilB cfg st s c
      = ({ st with pwmB := currentToPWM cfg c },
         [Event.analogSet Channel.B (currentToPWM cfg c)]) := by
  unfold setCoilB
  rw [if_neg (not_not_intro h.symm)]

/-- C8: calling setCoilA (and likewise setCoilB) twice in succession with the
same desired state writes the direction pins only during the first call — the
second call issues exactly one event, the PWM update — while both calls leave
the PWM duty at currentToPWM(current), a value clamped to
[0, PWM_MAX_DUTY_CYCLE]; when the cache differs and the state is a real drive
state, the first call does write the direction pins per the truth table. -/
theorem claim8_setCoil_repeat_only_first_writes_pins
    (cfg : Cfg) (st : StepperMotor) (s : COIL_STATE) (c : ℕ)
    (d1 d2 : Bool) (hs : dirPinLevels s = some (d1, d2)) :
    ((setCoilA cfg (setCoilA cfg st s c).1 s c).2
        = [Event.analogSet Channel.A (currentToPWM cfg c)] ∧
      (∀ e ∈ (setCoilA cfg (setCoilA cfg st s c).1 s c).2, e.isGpioWrite = false) ∧
      (setCoilA cfg st s c).1.pwmA = currentToPWM cfg c ∧
      (setCoilA cfg (setCoilA cfg st s c).1 s c).1.pwmA = currentToPWM cfg c ∧
      (st.previousCoilStateA ≠ s →
        (setCoilA cfg st s c).2
          = [Event.analogSet Channel.A 0,
             Event.gpioWrite Pin.COIL_A_DIR_1_PIN d1,
             Event.gpioWrite Pin.COIL_A_DIR_2_PIN d2,
             Event.analogSet Channel.A (currentToPWM cfg c)])) ∧
    ((setCoilB cfg (setCoilB cfg st s c).1 s c).2
        = [Event.analogSet Channel.B (currentToPWM cfg c)] ∧
      (∀ e ∈ (setCoilB cfg (setCoilB cfg st s c).1 s c).2, e.isGpioWrite = false) ∧
      (setCoilB cfg st s c).1.pwmB = currentToPWM cfg c ∧
      (setCoilB cfg (setCoilB cfg st s c).1 s c).1.pwmB = currentToPWM cfg c ∧
      (st.previousCoilStateB ≠ s →
        (setCoilB cfg st s c).2
          = [Event.analogSet Channel.B 0,
             Event.gpioWrite Pin.COIL_B_DIR_1_PIN d1,
             Event.gpioWrite Pin.COIL_B_DIR_2_PIN d2,
             Event.analogSet Channel.B (currentToPWM cfg c)])) ∧
    currentToPWM cfg c ≤ cfg.PWM_MAX_DUTY_CYCLE := by
  have hA2 := setCoilA_cached cfg (setCoilA cfg st s c).1 s c (setCoilA_prev cfg st s c)
  have hB2 := setCoilB_cached cfg (setCoilB cfg st s c).1 s c (setCoilB_prev cfg st s c)
  refine ⟨⟨?_, ?_, ?_, ?_, ?_⟩, ⟨?_, ?_, ?_, ?_, ?_⟩, constrain_le _ _⟩
  · rw [hA2]
  · rw [hA2]
    intro e he
    rw [List.mem_singleton] at he
    rw [he]
    rfl
  · unfold setCoilA
    by_cases h : s = st.previousCoilStateA
    · rw [if_neg (not_not_intro h)]
    · rw [if_pos h, hs]
  · rw [hA2]
  · intro hne
    unfold setCoilA
    rw [if_pos (fun hc => hne hc.symm), hs]
  · rw [hB2]
  · rw [hB2]
    intro e he
    rw [List.mem_singleton] at he
    rw [he]
    rfl
  · unfold setCoilB
    by_cases h : s = st.previousCoilStateB
    · rw [if_neg (not_not_intro h)]
    · rw [if_pos h, hs]
  · rw [hB2]
  · intro hne
    unfold setCoilB
    rw [if_pos (fun hc => hne hc.symm), hs]

/-- C8 witness: on the sample motor (coils cached as BRAKE), two successive
setCoilA(FORWARD, 500) calls write the direction pins only the first time and
both set the clamped PWM duty. -/
theorem claim8_witness :
    (setCoilA sampleCfg (setCoilA sampleCfg sampleMotor .FORWARD 500).1
        .FORWARD 500).2
      = [Event.analogSet Channel.A (currentToPWM sampleCfg 500)] ∧
    (setCoilA sampleCfg sampleMotor .FORWARD 500).2
      = [Event.analogSet Channel.A 0,
         Event.gpioWrite Pin.COIL_A_DIR_1_PIN true,
         Event.gpioWrite Pin.COIL_A_DIR_2_PIN false,
         Event.analogSet Channel.A (currentToPWM sampleCfg 500)] ∧
    currentToPWM sampleCfg 500 ≤ sampleCfg.PWM_MAX_DUTY_CYCLE := by
  have h := claim8_setCoil_repeat_only_first_writes_pins sampleCfg sampleMotor
    .FORWARD 500 true false rfl
  exact ⟨h.1.1, h.1.2.2.2.2 (by decide), h.2.2⟩

/-- Unfolding equation for one pass of the fallback loop. -/
lemma normLoop_succ (fuel : ℕ) (x : ℚ) :
    normLoop (fuel + 1) x
      = if x < 0 then normLoop fuel (x + 360)
        else if x > 360 then normLoop fuel (x - 360) else x := rfl

/-- The fallback loop with fuel 2 maps any value of [-180, 360] into
[0, 360]: values already in range are untouched, negative ones need exactly
one +360 step. -/
lemma normLoop_two_bounds (a : ℚ) (hlo : -180 ≤ a) (hhi : a ≤ 360) :
    0 ≤ normLoop 2 a ∧ normLoop 2 a ≤ 360 := by
  by_cases hneg : a < 0
  · rw [normLoop_succ, if_pos hneg, normLoop_succ,
      if_neg (by linarith), if_neg (by linarith)]
    constructor <;> linarith
  · rw [normLoop_succ, if_neg hneg, if_neg (by linarith)]
    constructor <;> linarith

/-- The round-based correction of driveCoilsAngle leaves every angle in
[-180, 360]: angles already in [0, 360] are untouched and out-of-range ones
land within 180 of zero. -/
lemma normalizeAngle_corrected_bounds (x : ℚ) :
    (-180 ≤ if x < 0 then x + (round (|x| / 360) : ℤ) * 360
      else if x > 360 then x - (round (x / 360) : ℤ) * 360 else x) ∧
    ((if x < 0 then x + (round (|x| / 360) : ℤ) * 360
      else if x > 360 then x - (round (x / 360) : ℤ) * 360 else x) ≤ 360) := by
  by_cases h1 : x < 0
  · rw [if_pos h1]
    have habs : |x| = -x := abs_of_neg h1
    have h := abs_sub_round (|x| / 360)
    rw [abs_le] at h
    rw [habs] at h ⊢
    constructor <;> linarith [h.1, h.2]
  · rw [if_neg h1]
    by_cases h2 : x > 360
    · rw [if_pos h2]
      have h := abs_sub_round (x / 360)
      rw [abs_le] at h
      constructor <;> linarith [h.1, h.2]
    · rw [if_neg h2]
      constructor <;> linarith

/-- The normalized angle of driveCoilsAngle always lies in the closed
interval [0, 360]. -/
lemma normalizeAngle_bounds (x : ℚ) :
    0 ≤ normalizeAngle x ∧ normalizeAngle x ≤ 360 := by
  have h := normalizeAngle_corrected_bounds x
  unfold normalizeAngle
  exact normLoop_two_bounds _ h.1 h.2

/-- Inputs already in [0, 360] pass through the normalization unchanged. -/
lemma normalizeAngle_of_mem (x : ℚ) (h0 : 0 ≤ x) (h1 : x ≤ 360) :
    normalizeAngle x = x := by
  unfold normalizeAngle
  rw [if_neg (not_lt.mpr h0), if_neg (not_lt.mpr h1), normLoop_succ,
    if_neg (not_lt.mpr h0), if_neg (not_lt.mpr h1)]

/-- The round-based correction maps 370 to 10 and the loop keeps it. -/
lemma normalizeAngle_370 : normalizeAngle (370 : ℚ) = 10 := by
  unfold normalizeAngle
  rw [if_neg (by norm_num : ¬(370 : ℚ) < 0), if_pos (by norm_num : (370 : ℚ) > 360),
    show (round ((370 : ℚ) / 360) : ℤ) = 1 by rw [round_eq]; norm_num]
  norm_num [normLoop_succ]

/-- The round-based correction leaves -10 unchanged (round(10/360) = 0) and
the fallback loop then brings it to 350. -/
lemma normalizeAngle_neg10 : normalizeAngle (-10 : ℚ) = 350 := by
  unfold normalizeAngle
  have habs : |(-10 : ℚ)| = 10 := by
    rw [abs_of_nonpos (by norm_num)]
    norm_num
  rw [if_pos (by norm_num : (-10 : ℚ) < 0), habs,
    show (round ((10 : ℚ) / 360) : ℤ) = 0 by rw [round_eq]; norm_num]
  rw [show (-10 : ℚ) + (0 : ℤ) * 360 = -10 by norm_num, normLoop_succ,
    if_pos (by norm_num : (-10 : ℚ) < 0), normLoop_succ]
  norm_num

/-- driveCoilsAngle only looks at the input through normalizeAngle. -/
lemma driveCoilsAngle_congr (cfg : Cfg) (st : StepperMotor) {x y : ℚ}
    (h : normalizeAngle x = normalizeAngle y) :
    driveCoilsAngle cfg st x = driveCoilsAngle cfg st y := by
  unfold driveCoilsAngle
  rw [h]

/-- C7 (amended): driveCoilsAngle normalizes its argument into the closed
interval [0, 360] (the right endpoint is reached exactly at input 360, which
the open-interval claim excludes), converts it to the nearest whole microstep
via (angle / fullStepAngle) * microstepDivisor before delegating to
driveCoils, and in particular driveCoilsAngle(370) issues exactly the coil
commands of driveCoilsAngle(10), and driveCoilsAngle(-10) exactly those of
driveCoilsAngle(350). -/
theorem claim7_driveCoilsAngle_normalization :
    (∀ x : ℚ, 0 ≤ normalizeAngle x ∧ normalizeAngle x ≤ 360) ∧
    (∀ (cfg : Cfg) (st : StepperMotor),
      driveCoilsAngle cfg st 370 = driveCoilsAngle cfg st 10 ∧
      driveCoilsAngle cfg st (-10) = driveCoilsAngle cfg st 350) ∧
    (∀ (cfg : Cfg) (st : StepperMotor) (x : ℚ),
      driveCoilsAngle cfg st x = driveCoils cfg st
        (((round (normalizeAngle x / st.fullStepAngle *
          (st.microstepDivisor : ℚ))).toNat % 65536 : ℕ) : ℤ)) := by
  refine ⟨normalizeAngle_bounds, fun cfg st => ⟨?_, ?_⟩, fun cfg st x => rfl⟩
  · exact driveCoilsAngle_congr cfg st
      (normalizeAngle_370.trans (normalizeAngle_of_mem 10 (by norm_num) (by norm_num)).symm)
  · exact driveCoilsAngle_congr cfg st
      (normalizeAngle_neg10.trans (normalizeAngle_of_mem 350 (by norm_num) (by norm_num)).symm)

/-- C7 counterexample: the input 360 is left at 360 by the normalization (the
C corrections test strictly against 0 and 360), so the normalized angle is not
in the half-open interval [0, 360) stated by the claim. -/
theorem claim7_counterexample :
    normalizeAngle 360 = 360 ∧ ¬ normalizeAngle 360 < 360 := by
  have h : normalizeAngle (360 : ℚ) = 360 :=
    normalizeAngle_of_mem 360 (by norm_num) (by norm_num)
  exact ⟨h, by rw [h]; exact lt_irrefl 360⟩

/-- The C truncating modulo agrees with the Euclidean remainder modulo any
divisor of its modulus. -/
lemma tmod_emod_of_dvd (s m n : ℤ) (h : n ∣ m) :
    Int.tmod s m % n = s % n := by
  conv_rhs => rw [← Int.tdiv_add_tmod s m]
  obtain ⟨c, rfl⟩ := h
  rw [mul_assoc, add_comm, Int.add_mul_emod_self_left]

/-- With a power-of-two table size of at most 2^16 that divides the electrical
cycle 4 * microstepDivisor, the masked sine index of driveCoils is simply the
step count reduced modulo the table size. -/
lemma sineArrayIndex_eq_emod (cfg : Cfg) (d : ℕ) (j : ℕ)
    (hN : cfg.SINE_VAL_COUNT = 2 ^ j) (hj : j ≤ 16)
    (hdvd : ((2 : ℤ) ^ j) ∣ 4 * (d : ℤ)) (s : ℤ) :
    sineArrayIndex cfg d s = (s % ((2 : ℤ) ^ j)).toNat := by
  simp only [sineArrayIndex]
  rw [hN, Nat.and_pow_two_sub_one_eq_mod]
  have hXnn : (0 : ℤ) ≤ Int.tmod s (4 * (d : ℤ)) % (2 ^ 32 : ℤ) :=
    Int.emod_nonneg _ (by positivity)
  have hlt : (Int.tmod s (4 * (d : ℤ)) % (2 ^ 32 : ℤ)).toNat % 2 ^ j < 65536 := by
    calc (Int.tmod s (4 * (d : ℤ)) % (2 ^ 32 : ℤ)).toNat % 2 ^ j
        < 2 ^ j := Nat.mod_lt _ (Nat.pos_pow_of_pos j (by norm_num))
      _ ≤ 2 ^ 16 := Nat.pow_le_pow_right (by norm_num) hj
      _ = 65536 := by norm_num
  rw [Nat.mod_eq_of_lt hlt]
  have hcast : (((Int.tmod s (4 * (d : ℤ)) % (2 ^ 32 : ℤ)).toNat % 2 ^ j : ℕ) : ℤ)
      = s % ((2 : ℤ) ^ j) := by
    rw [Int.natCast_mod, Nat.cast_pow, Nat.cast_ofNat, Int.toNat_of_nonneg hXnn,
      Int.emod_emod_of_dvd _ (pow_dvd_pow (2 : ℤ) (le_trans hj (by norm_num)))]
    exact tmod_emod_of_dvd s _ _ hdvd
  have hback : ((s % ((2 : ℤ) ^ j)).toNat : ℤ) = s % ((2 : ℤ) ^ j) :=
    Int.toNat_of_nonneg (Int.emod_nonneg s (by positivity))
  exact_mod_cast hcast.trans hback.symm

/-- C4: for every step count s and every integer k, driveCoils(s) and
driveCoils(s + 4 * microstepDivisor * k) issue identical coil commands — the
same coil state and the same current magnitude on each channel — whenever the
sine table size is a power of two of at most 2^16 that divides the electrical
cycle 4 * microstepDivisor, as spec §4.1 requires of the table. -/
theorem claim4_driveCoils_periodicity
    (cfg : Cfg) (peak d : ℕ) (s k : ℤ) (j : ℕ)
    (hN : cfg.SINE_VAL_COUNT = 2 ^ j) (hj : j ≤ 16)
    (hdvd : (cfg.SINE_VAL_COUNT : ℤ) ∣ 4 * (d : ℤ)) :
    driveCoilsCmds cfg peak d (s + 4 * (d : ℤ) * k) = driveCoilsCmds cfg peak d s := by
  have hdvd2 : ((2 : ℤ) ^ j) ∣ 4 * (d : ℤ) := by
    have : ((cfg.SINE_VAL_COUNT : ℕ) : ℤ) = (2 : ℤ) ^ j := by
      rw [hN]
      push_cast
      ring
    rw [← this]
    exact hdvd
  have hidx : sineArrayIndex cfg d (s + 4 * (d : ℤ) * k) = sineArrayIndex cfg d s := by
    rw [sineArrayIndex_eq_emod cfg d j hN hj hdvd2, sineArrayIndex_eq_emod cfg d j hN hj hdvd2]
    obtain ⟨c, hc⟩ := hdvd2
    rw [hc, mul_assoc, Int.add_mul_emod_self_left]
  unfold driveCoilsCmds
  rw [hidx]

/-- C4 witness: with the sample 128-entry table (2^7) and divisor 32
(4 x 32 = 128), the commands at steps 5 and 5 + 128 coincide. -/
theorem claim4_witness :
    driveCoilsCmds sampleCfg 1414 32 (5 + 4 * (32 : ℤ) * 1)
      = driveCoilsCmds sampleCfg 1414 32 5 :=
  claim4_driveCoils_periodicity sampleCfg 1414 32 5 1 7 rfl (by norm_num)
    (by decide)

/-- currentToPWM of a zero current is zero duty for every configuration. -/
lemma currentToPWM_zero (cfg : Cfg) : currentToPWM cfg 0 = 0 := by
  unfold currentToPWM constrain
  simp

/-- setCoilA only touches the A-channel outputs: state, angles and the B
channel are preserved, and the A duty ends at currentToPWM(current). -/
lemma setCoilA_fields (cfg : Cfg) (st : StepperMotor) (s : COIL_STATE) (c : ℕ) :
    (setCoilA cfg st s c).1.state = st.state ∧
    (setCoilA cfg st s c).1.currentAngle = st.currentAngle ∧
    (setCoilA cfg st s c).1.pwmB = st.pwmB ∧
    (setCoilA cfg st s c).1.previousCoilStateB = st.previousCoilStateB ∧
    (setCoilA cfg st s c).1.pwmA = currentToPWM cfg c := by
  unfold setCoilA
  by_cases h : s = st.previousCoilStateA
  · rw [if_neg (not_not_intro h)]
    exact ⟨rfl, rfl, rfl, rfl, rfl⟩
  · rw [if_pos h]
    cases s <;> exact ⟨rfl, rfl, rfl, rfl, rfl⟩

/-- setCoilB only touches the B-channel outputs. -/
lemma setCoilB_fields (cfg : Cfg) (st : StepperMotor) (s : COIL_STATE) (c : ℕ) :
    (setCoilB cfg st s c).1.state = st.state ∧
    (setCoilB cfg st s c).1.currentAngle = st.currentAngle ∧
    (setCoilB cfg st s c).1.pwmA = st.pwmA ∧
    (setCoilB cfg st s c).1.previousCoilStateA = st.previousCoilStateA ∧
    (setCoilB cfg st s c).1.pwmB = currentToPWM cfg c := by
  unfold setCoilB
  by_cases h : s = st.previousCoilStateB
  · rw [if_neg (not_not_intro h)]
    exact ⟨rfl, rfl, rfl, rfl, rfl⟩
  · rw [if_pos h]
    cases s <;> exact ⟨rfl, rfl, rfl, rfl, rfl⟩

/-- The idling default branch of setState commits the requested state, keeps
the tracked angle, caches IDLE_MODE on both channels and leaves both PWM
duties at the zero-current value, i.e. zero: the coils end de-energized. -/
lemma setStateDefaultBranch_fields (cfg : Cfg) (st : StepperMotor)
    (ns : MOTOR_STATE) :
    (setStateDefaultBranch cfg st ns).state = ns ∧
    (setStateDefaultBranch cfg st ns).currentAngle = st.currentAngle ∧
    (setStateDefaultBranch cfg st ns).pwmA = 0 ∧
    (setStateDefaultBranch cfg st ns).pwmB = 0 ∧
    (setStateDefaultBranch cfg st ns).previousCoilStateA = cfg.IDLE_MODE ∧
    (setStateDefaultBranch cfg st ns).previousCoilStateB = cfg.IDLE_MODE := by
  unfold setStateDefaultBranch
  have hA := setCoilA_fields cfg st cfg.IDLE_MODE 0
  have hB := setCoilB_fields cfg (setCoilA cfg st cfg.IDLE_MODE 0).1 cfg.IDLE_MODE 0
  have hAprev := setCoilA_prev cfg st cfg.IDLE_MODE 0
  have hBprev := setCoilB_prev cfg (setCoilA cfg st cfg.IDLE_MODE 0).1 cfg.IDLE_MODE 0
  refine ⟨rfl, ?_, ?_, ?_, ?_, ?_⟩
  · exact hB.2.1.trans hA.2.1
  · exact hB.2.2.1.trans (hA.2.2.2.2.trans (currentToPWM_zero cfg))
  · exact hB.2.2.2.2.trans (currentToPWM_zero cfg)
  · exact hB.2.2.2.1.trans hAprev
  · exact hBprev

/-- From DISABLED, setState(ENABLED, false) takes the ENABLED case of the
inner switch and, lacking a break, continues into the default branch. -/
lemma setState_disabled_to_enabled_eq (cfg : Cfg) (a : ℚ) (st : StepperMotor)
    (hdis : st.state = .DISABLED) :
    setState cfg a st .ENABLED false
      = setStateDefaultBranch cfg (setStateEnableActions cfg a st .ENABLED)
          .ENABLED := by
  unfold setState
  rw [if_pos (by rw [hdis]; intro hc; cases hc),
    if_neg Bool.false_ne_true, if_pos (Or.inr hdis)]

/-- Drive value reached by driveCoilsAngle on the sample motor at 45 degrees:
45 / 1.8 * 16 rounds to the whole microstep 400. -/
lemma sample_45_microsteps :
    ((round (normalizeAngle ((45 : ℚ) - sampleMotor.startupAngleOffset) /
      sampleMotor.fullStepAngle * (sampleMotor.microstepDivisor : ℚ))).toNat
      % 65536 : ℕ) = 400 := by
  have hoff : (45 : ℚ) - sampleMotor.startupAngleOffset = 45 := by
    show (45 : ℚ) - 0 = 45
    norm_num
  rw [hoff, normalizeAngle_of_mem 45 (by norm_num) (by norm_num)]
  have hq : (45 : ℚ) / sampleMotor.fullStepAngle *
      (sampleMotor.microstepDivisor : ℚ) = 400 := by
    show (45 : ℚ) / (9 / 5) * ((16 : ℕ) : ℚ) = 400
    norm_num
  rw [hq, show round (400 : ℚ) = 400 by rw [round_eq]; norm_num]
  decide

/-- driveCoilsAngle on the sample motor at the sensed 45 degrees delegates to
driveCoils at microstep 400. -/
lemma sample_driveCoilsAngle_45 :
    driveCoilsAngle sampleCfg sampleMotor ((45 : ℚ) - sampleMotor.startupAngleOffset)
      = driveCoils sampleCfg sampleMotor 400 := by
  simp only [driveCoilsAngle]
  rw [sample_45_microsteps]
  rfl

/-- C1: evaluated on the spec scenario (state DISABLED, sensor angle 45.0,
sample configuration), setState(ENABLED, false) does commit ENABLED and
correct currentAngle, and the enabling actions do first energize the coils to
hold the angle (both PWM duties reach the clamp 1000) — but the missing break
lets execution continue into the default branch, which idles both coils: the
call ends with both PWM duties at 0 and both channels cached at IDLE_MODE,
contradicting the claim that the coils are left energized in the hold
position. -/
theorem claim1_enable_fallthrough_deenergizes_coils :
    (setState sampleCfg 45 sampleMotor .ENABLED false).state = .ENABLED ∧
    (setState sampleCfg 45 sampleMotor .ENABLED false).currentAngle = 45 ∧
    (setStateEnableActions sampleCfg 45 sampleMotor .ENABLED).pwmA = 1000 ∧
    (setStateEnableActions sampleCfg 45 sampleMotor .ENABLED).pwmB = 1000 ∧
    (setState sampleCfg 45 sampleMotor .ENABLED false).pwmA = 0 ∧
    (setState sampleCfg 45 sampleMotor .ENABLED false).pwmB = 0 ∧
    (setState sampleCfg 45 sampleMotor .ENABLED false).previousCoilStateA
      = sampleCfg.IDLE_MODE ∧
    (setState sampleCfg 45 sampleMotor .ENABLED false).previousCoilStateB
      = sampleCfg.IDLE_MODE := by
  have hr := setState_disabled_to_enabled_eq sampleCfg 45 sampleMotor rfl
  have hmid : setStateEnableActions sampleCfg 45 sampleMotor .ENABLED
      = { (driveCoils sampleCfg sampleMotor 400).1 with
          currentAngle := (45 : ℚ) - sampleMotor.startupAngleOffset,
          state := .ENABLED } := by
    unfold setStateEnableActions
    rw [sample_driveCoilsAngle_45]
  have hfields := setStateDefaultBranch_fields sampleCfg
    (setStateEnableActions sampleCfg 45 sampleMotor .ENABLED) .ENABLED
  have hangle : (setStateEnableActions sampleCfg 45 sampleMotor .ENABLED).currentAngle
      = 45 := by
    rw [hmid]
    show (45 : ℚ) - 0 = 45
    norm_num
  refine ⟨?_, ?_, ?_, ?_, ?_, ?_, ?_, ?_⟩
  · rw [hr]; exact hfields.1
  · rw [hr]; exact hfields.2.1.trans hangle
  · rw [hmid]; decide
  · rw [hmid]; decide
  · rw [hr]; exact hfields.2.2.1
  · rw [hr]; exact hfields.2.2.2.1
  · rw [hr]; exact hfields.2.2.2.2.1
  · rw [hr]; exact hfields.2.2.2.2.2

end Intellistep
